import Mathlib

/-!
Shallow embedding of the cache-server source (src/code-orig/main.rs) and
proofs about its wire-protocol codec, dispatcher and worker loop.

Bytes are modelled as lists of natural numbers (each entry the value of one
u8).  Fallible code is embedded with Option: a result of none models a Rust
index-out-of-bounds panic.  Loops are embedded as structurally recursive
functions on an explicit fuel argument; every wrapper supplies fuel
strictly larger than the number of iterations the Rust loop can make
(each iteration advances the cursor by at least one position of the
buffer), so the fuel-exhaustion branch is unreachable from the wrappers.
-/

set_option maxRecDepth 16384

namespace CacheServer

abbrev Bytes := List Nat

/-- Bytes of an ASCII string literal (used to transcribe the string
literals of the source). -/
def strB (s : String) : Bytes := s.data.map (fun c => c.toNat)

/-- Rust slice expression input[s..e] as a list (valid for s ≤ e ≤ len,
which holds at every reachable call site of the source). -/
def sliceB (l : Bytes) (s e : Nat) : Bytes := (l.take e).drop s

/-- The UTF-8 replacement character U+FFFD, as emitted by
String::from_utf8_lossy for each maximal invalid subpart. -/
def replChar : Bytes := [239, 191, 189]

/-- Continuation byte 0x80..0xBF. -/
def isCont (b : Nat) : Bool := 128 ≤ b && b ≤ 191

/-- Admissible range of the first continuation byte after lead byte b
(UTF-8 shortest-form and surrogate restrictions). -/
def cont1ok (b c : Nat) : Bool :=
  if b = 224 then 160 ≤ c && c ≤ 191
  else if b = 237 then 128 ≤ c && c ≤ 159
  else if b = 240 then 144 ≤ c && c ≤ 191
  else if b = 244 then 128 ≤ c && c ≤ 143
  else isCont c

/-- String::from_utf8_lossy viewed on the byte level: valid UTF-8
sequences are kept, each maximal invalid subpart becomes U+FFFD. -/
def utf8Lossy : Bytes → Bytes
  | [] => []
  | b :: r =>
    if b < 128 then b :: utf8Lossy r
    else if 194 ≤ b && b ≤ 223 then
      match r with
      | c1 :: r1 => if isCont c1 then b :: c1 :: utf8Lossy r1 else replChar ++ utf8Lossy (c1 :: r1)
      | [] => replChar
    else if 224 ≤ b && b ≤ 239 then
      match r with
      | c1 :: r1 =>
        if cont1ok b c1 then
          match r1 with
          | c2 :: r2 =>
            if isCont c2 then b :: c1 :: c2 :: utf8Lossy r2
            else replChar ++ utf8Lossy (c2 :: r2)
          | [] => replChar
        else replChar ++ utf8Lossy (c1 :: r1)
      | [] => replChar
    else if 240 ≤ b && b ≤ 244 then
      match r with
      | c1 :: r1 =>
        if cont1ok b c1 then
          match r1 with
          | c2 :: r2 =>
            if isCont c2 then
              match r2 with
              | c3 :: r3 =>
                if isCont c3 then b :: c1 :: c2 :: c3 :: utf8Lossy r3
                else replChar ++ utf8Lossy (c3 :: r3)
              | [] => replChar
            else replChar ++ utf8Lossy (c2 :: r2)
          | [] => replChar
        else replChar ++ utf8Lossy (c1 :: r1)
      | [] => replChar
    else replChar ++ utf8Lossy r

/-- safe_line_from_slice (main.rs lines 422-432): bytes below 0x20 become
a space, then the result is decoded lossily. -/
def safe_line_from_slice (s : Bytes) : Bytes :=
  utf8Lossy (s.map (fun b => if b < 32 then 32 else b))

/-- UTF-8 bytes of the char that a u8 b casts to (Rust expression
`input[s] as char` formatted into a string). -/
def charBytes (b : Nat) : Bytes :=
  if b < 128 then [b] else [192 + b / 64, 128 + b % 64]

/-- ASCII decimal digit. -/
def isDigit (b : Nat) : Bool := 48 ≤ b && b ≤ 57

/-- Rust str::parse::<usize> on the bytes of the string: an optional
leading plus sign, then one or more decimal digits, value at most
usize::MAX.  (from_utf8_lossy before the parse cannot change the result:
it is the identity on ASCII digit strings, and any byte it rewrites is
not a digit.) -/
def parseUsize (s : Bytes) : Option Nat :=
  let digits := match s with
    | 43 :: rest => rest
    | _ => s
  if digits = [] then none
  else if digits.all isDigit then
    let v := digits.foldl (fun acc b => acc * 10 + (b - 48)) 0
    if v < 2 ^ 64 then some v else none
  else none

/-- hex_to_digit (main.rs lines 335-343). -/
def hex_to_digit (b : Nat) : Nat :=
  if b ≤ 57 then b - 48 else if b ≤ 70 then b - 65 + 10 else b - 97 + 10

/-- Hexadecimal ASCII digit. -/
def isHexDigit (b : Nat) : Bool :=
  isDigit b || (97 ≤ b && b ≤ 102) || (65 ≤ b && b ≤ 70)

/-- parse_hex_byte (main.rs lines 322-333). -/
def parse_hex_byte (packet : Bytes) (i : Nat) : Option Nat :=
  if i + 1 < packet.length then
    if isHexDigit (packet.getD i 0) && isHexDigit (packet.getD (i + 1) 0) then
      some (hex_to_digit (packet.getD i 0) * 16 + hex_to_digit (packet.getD (i + 1) 0))
    else none
  else none

/-- Loop of parse_quoted_arg (main.rs lines 291-317), i the cursor, arg
the accumulator.  The close arm of the source, written
`ch if packet[i] == ch`, rebinds packet[i] as a fresh ch in the match
pattern (a bare identifier in a Rust pattern is a new binding, shadowing
the outer `let ch = packet[i - 1]`), so its guard compares packet[i]
with itself and is always true: every byte other than a newline and a
backslash returns (arg, i + 1, true) at once, and the accumulate arm
below it, `_ => arg.push(packet[i])`, is dead code.  A result of none
models the out-of-bounds panic of packet[i] after i += 1 when the
backslash is the final byte.  Fuel: the cursor grows by at least one
each iteration, so packet.length + 1 - i iterations suffice; the fuel-0
branch mirrors the end-of-buffer return and is unreachable from
parse_quoted_arg. -/
def pqLoop (packet : Bytes) : Nat → Nat → Bytes → Option (Bytes × Nat × Bool)
  | 0, i, _ => some ([], i, false)
  | fuel + 1, i, arg =>
    if i < packet.length then
      if packet.getD i 0 = 10 then some ([], i, false)
      else if packet.getD i 0 = 92 then
        if i + 1 < packet.length then
          if packet.getD (i + 1) 0 = 110 then pqLoop packet fuel (i + 2) (arg ++ [10])
          else if packet.getD (i + 1) 0 = 114 then pqLoop packet fuel (i + 2) (arg ++ [13])
          else if packet.getD (i + 1) 0 = 116 then pqLoop packet fuel (i + 2) (arg ++ [9])
          else if packet.getD (i + 1) 0 = 98 then pqLoop packet fuel (i + 2) (arg ++ [8])
          else if packet.getD (i + 1) 0 = 97 then pqLoop packet fuel (i + 2) (arg ++ [7])
          else if packet.getD (i + 1) 0 = 120 then
            match parse_hex_byte packet (i + 2) with
            | some v => pqLoop packet fuel (i + 4) (arg ++ [v])
            | none => pqLoop packet fuel (i + 2) (arg ++ [120])
          else pqLoop packet fuel (i + 2) (arg ++ [packet.getD (i + 1) 0])
        else none
      else some (arg, i + 1, true)
    else some ([], i, false)

/-- parse_quoted_arg (main.rs lines 287-320).  The guard models the panic
of `let ch = packet[i - 1]` for i = 0 or i - 1 out of bounds (never
reached from the inline scanner, which passes the position right after an
existing quote byte); the value ch is dead afterwards, shadowed by the
match arm binding of the always-true close arm. -/
def parse_quoted_arg (packet : Bytes) (i : Nat) : Option (Bytes × Nat × Bool) :=
  if 1 ≤ i ∧ i - 1 < packet.length then
    pqLoop packet (packet.length + 1) i []
  else none

example : parse_quoted_arg (strB "\x22ab\x22 ") 1 = some ([], 2, true) := by decide
example : parse_quoted_arg (strB "\x22a") 1 = some ([], 2, true) := by decide
example : parse_quoted_arg (strB "\x22") 1 = some ([], 1, false) := by decide
example : parse_quoted_arg (strB "\x22\\") 1 = none := by decide
example : parse_quoted_arg (strB "\x22\\n") 1 = some ([], 3, false) := by decide
example : parse_quoted_arg (strB "\x22\\x41\x22") 1 = some ([65], 6, true) := by decide
example : parse_quoted_arg (strB "\x22\\q\x22") 1 = some ([113], 4, true) := by decide
example : strB "A\n" = [65, 10] := by decide

/-- Codec result (args, err, new_ni, complete), the 4-tuple every
redcon_take_* function of the source returns. -/
structure TakeResult where
  args : List Bytes
  err : Bytes
  ni : Nat
  complete : Bool
deriving DecidableEq, Repr

/-- The only error message the inline scanner produces
(main.rs line 270). -/
def unbalancedMsg : Bytes :=
  strB "ERR Protocol error: unbalanced quotes in request"

/-- Loop of redcon_take_inline_args (main.rs lines 250-282).  s is the
token start, i the cursor.  none propagates the parse_quoted_arg panic.
Fuel: i grows by at least one per iteration (after a balanced quote the
cursor moves past the closing quote), so packet.length + 1 iterations
suffice from any start; the fuel-0 branch mirrors the end-of-buffer
return. -/
def ilLoop (packet : Bytes) (ni : Nat) : Nat → Nat → Nat → List Bytes → Option TakeResult
  | 0, _, _, _ => some ⟨[], [], ni, false⟩
  | fuel + 1, s, i, args =>
    if i < packet.length then
      if packet.getD i 0 = 32 ∨ packet.getD i 0 = 10 then
        let ii := if packet.getD i 0 = 10 ∧ s < i ∧ packet.getD (i - 1) 0 = 13 then i - 1 else i
        let args' := if s ≠ ii then args ++ [sliceB packet s ii] else args
        if packet.getD i 0 = 10 then some ⟨args', [], i + 1, true⟩
        else ilLoop packet ni fuel (i + 1) (i + 1) args'
      else if packet.getD i 0 = 34 ∨ packet.getD i 0 = 39 then
        match parse_quoted_arg packet (i + 1) with
        | none => none
        | some (arg, newI, balanced) =>
          if balanced then ilLoop packet ni fuel (newI + 1) (newI + 1) (args ++ [arg])
          else some ⟨[], unbalancedMsg, ni, false⟩
      else ilLoop packet ni fuel s (i + 1) args
    else some ⟨[], [], ni, false⟩

/-- redcon_take_inline_args (main.rs lines 245-285). -/
def redcon_take_inline_args (packet : Bytes) (ni : Nat) : Option TakeResult :=
  ilLoop packet ni (packet.length + 1) ni ni []

/-- Inner while loop of redcon_take_multibulk_args (main.rs lines
359-381): scan from i for the next CRLF and process one bulk header.
Returns (err, parsed bulk if any, new cursor).  The break on a
truncated payload and the exhaustion of the scan both return err = []
and no bulk, exactly as the two break paths of the source leave the
state.  Fuel: the scan advances i by one, so input.length + 1 suffices. -/
def mbInnerScan (input : Bytes) : Nat → Nat → Nat → Bytes × Option Bytes × Nat
  | 0, _, i => ([], none, i)
  | fuel + 1, s, i =>
    if i < input.length then
      if input.getD (i - 1) 0 = 13 ∧ input.getD i 0 = 10 then
        if input.getD s 0 ≠ 36 then
          (strB "expected \x27$\x27, got \x27" ++ charBytes (input.getD s 0) ++ strB "\x27",
            none, i)
        else
          match parseUsize (sliceB input (s + 1) (i - 1)) with
          | some nbytes =>
            if input.length < i + 1 + nbytes + 2 then ([], none, i)
            else ([], some (sliceB input (i + 1) (i + 1 + nbytes)), i + 1 + nbytes + 2)
          | none => (strB "invalid bulk length", none, i)
      else mbInnerScan input fuel s (i + 1)
    else ([], none, i)

/-- For loop over the announced bulk count (main.rs lines 357-390):
k is the number of iterations left, each sets s := i and runs the inner
scan; an error breaks, a full args vector sets complete. -/
def mbFor (input : Bytes) (nargs : Nat) : Nat → Nat → List Bytes → List Bytes × Bytes × Nat × Bool
  | 0, i, args => (args, [], i, false)
  | k + 1, i, args =>
    match mbInnerScan input (input.length + 1) i i with
    | (err, newArg, i') =>
      if err ≠ [] then (args, err, i', false)
      else
        let args' := args ++ newArg.toList
        if args'.length = nargs then (args', [], i', true)
        else mbFor input nargs k i' args'

/-- Outer while loop of redcon_take_multibulk_args (main.rs lines
351-399): scan from ni + 1 for the first CRLF, parse the bulk count,
then run the for loop.  Fuel: the scan advances i by one, so
input.length + 1 suffices. -/
def mbOuter (input : Bytes) (ni : Nat) : Nat → Nat → List Bytes × Bytes × Nat × Bool
  | 0, i => ([], [], i, false)
  | fuel + 1, i =>
    if i < input.length then
      if input.getD (i - 1) 0 = 13 ∧ input.getD i 0 = 10 then
        match parseUsize (sliceB input (ni + 1) (i - 1)) with
        | some nargs =>
          match mbFor input nargs nargs (i + 1) [] with
          | (args, err, iF, compF) => (args, err, iF, (nargs == 0) || compF)
        | none => ([], strB "invalid multibulk length", i, false)
      else mbOuter input ni fuel (i + 1)
    else ([], [], i, false)

/-- redcon_take_multibulk_args (main.rs lines 345-404).  Only invoked
with input[ni] = 0x2a, so the outer scan never finds a CRLF before
ni + 2 and the count slice is always well formed. -/
def redcon_take_multibulk_args (input : Bytes) (ni : Nat) : TakeResult :=
  match mbOuter input ni (input.length + 1) (ni + 1) with
  | (args, err, i, complete) =>
    if err ≠ [] then
      ⟨args, strB "ERR Protocol error: " ++ safe_line_from_slice err, i, complete⟩
    else ⟨args, [], i, complete⟩

/-- redcon_take_args (main.rs lines 406-416). -/
def redcon_take_args (input : Bytes) (ni : Nat) : Option TakeResult :=
  if ni < input.length then
    if input.getD ni 0 = 42 then some (redcon_take_multibulk_args input ni)
    else redcon_take_inline_args input ni
  else some ⟨[], [], ni, false⟩

example : redcon_take_inline_args (strB "PING\r\n") 0 = some ⟨[strB "PING"], [], 6, true⟩ := by decide
example : redcon_take_inline_args (strB "SET a 1\n") 0 =
    some ⟨[strB "SET", strB "a", strB "1"], [], 8, true⟩ := by decide
example : redcon_take_inline_args (strB "\x22a\x22 \n") 0 = some ⟨[[]], [], 5, true⟩ := by decide
example : redcon_take_inline_args (strB "\x22a\x22\r\n") 0 = some ⟨[[]], [], 5, true⟩ := by decide
example : redcon_take_inline_args (strB "\x22a") 0 = some ⟨[], [], 0, false⟩ := by decide
example : redcon_take_inline_args (strB "\x22") 0 = some ⟨[], unbalancedMsg, 0, false⟩ := by decide
example : redcon_take_inline_args (strB "PIN") 0 = some ⟨[], [], 0, false⟩ := by decide
example : redcon_take_multibulk_args (strB "*1\r\n$4\r\nPING\r\n") 0 =
    ⟨[strB "PING"], [], 14, true⟩ := by decide
example : redcon_take_multibulk_args (strB "*0\r\n") 0 = ⟨[], [], 4, true⟩ := by decide
example : redcon_take_multibulk_args (strB "*2\r\n") 0 = ⟨[], [], 4, false⟩ := by decide
example : redcon_take_multibulk_args (strB "*2\r\n$3\r\nfoo\r\n") 0 =
    ⟨[strB "foo"], [], 13, false⟩ := by decide
example : redcon_take_multibulk_args (strB "*2\r\n$1\r\na") 0 =
    ⟨[], strB "ERR Protocol error: expected \x27$\x27, got \x27 \x27", 7, false⟩ := by decide
example : redcon_take_multibulk_args (strB "*x\r\n") 0 =
    ⟨[], strB "ERR Protocol error: invalid multibulk length", 3, false⟩ := by decide

/-- The shared store: HashMap<Vec<u8>, Vec<u8>> as an association list
(iteration order of the HashMap is unspecified; no claim depends on it). -/
abbrev Store := List (Bytes × Bytes)

/-- HashMap::get. -/
def storeGet (k : Bytes) : Store → Option Bytes
  | [] => none
  | (k', v) :: r => if k' = k then some v else storeGet k r

/-- HashMap::insert (replaces the value of an existing key). -/
def storeInsert (k v : Bytes) : Store → Store
  | [] => [(k, v)]
  | (k', v') :: r => if k' = k then (k, v) :: r else (k', v') :: storeInsert k v r

/-- HashMap::remove, returning the removed value when present. -/
def storeRemove (k : Bytes) : Store → Option Bytes × Store
  | [] => (none, [])
  | (k', v) :: r =>
    if k' = k then (some v, r)
    else
      match storeRemove k r with
      | (o, r') => (o, (k', v) :: r')

/-- Pairwise comparison loop of arg_match (main.rs lines 439-451); the
lengths are already known equal.  Rust u8 arithmetic what[i] + 32 and
what[i] - 32 wraps, hence the mod 256. -/
def amLoop : Bytes → Bytes → Bool
  | a :: ar, w :: wr =>
    (if a = w then true
     else if 97 ≤ a ∧ a ≤ 122 then a == (w + 32) % 256
     else if 65 ≤ a ∧ a ≤ 90 then a == (w + 224) % 256
     else true) && amLoop ar wr
  | _, _ => true

/-- arg_match (main.rs lines 434-453); the &str command name is passed as
its bytes. -/
def arg_match (arg what : Bytes) : Bool :=
  if arg.length ≠ what.length then false else amLoop arg what

example : arg_match (strB "SeT") (strB "SET") = true := by decide
example : arg_match (strB "0ING") (strB "PING") = true := by decide
example : arg_match (strB "@ET") (strB "SET") = true := by decide
example : arg_match (strB "QUIT") (strB "KEYS") = false := by decide

/-- Decimal ASCII bytes of a usize (Rust to_string on the length). -/
def numB (n : Nat) : Bytes := strB (toString n)

/-- make_bulk (main.rs lines 515-525). -/
def make_bulk (bulk : Bytes) : Bytes :=
  [36] ++ numB bulk.length ++ [13, 10] ++ bulk ++ [13, 10]

/-- make_array (main.rs lines 527-534). -/
def make_array (count : Nat) : Bytes :=
  [42] ++ numB count ++ [13, 10]

/-- invalid_num_args (main.rs lines 536-542): the command name goes
through String::from_utf8_lossy only, with no control-byte replacement. -/
def invalid_num_args (cmd : Bytes) : Bytes :=
  strB "-ERR wrong number of arguments for \x27" ++ utf8Lossy cmd
    ++ strB "\x27 command\r\n"

/-- Modelled from the spec: bracket-balance check of glob Pattern::new
(the glob crate is an external collaborator, not in src/); the flag says
whether the scan is inside a [set] class. -/
def globCheck : Bool → Bytes → Bool
  | false, [] => true
  | true, [] => false
  | false, 91 :: r => globCheck true r
  | false, _ :: r => globCheck false r
  | true, 93 :: r => globCheck false r
  | true, _ :: r => globCheck true r

/-- Modelled from the spec: Pattern::new of the glob crate; a pattern
with an unclosed class fails to compile. -/
def globNew (p : Bytes) : Option Bytes :=
  if globCheck false p then some p else none

/-- Modelled from the spec: read a [set] class as the list of its
literal members. -/
def globReadClass : Bytes → Option (Bytes × Bytes)
  | [] => none
  | 93 :: r => some ([], r)
  | c :: r =>
    match globReadClass r with
    | some (cls, r') => some (c :: cls, r')
    | none => none

/-- Modelled from the spec: the glob matcher of section 6, with star,
question mark and literal character classes, on bytes of the lossily
decoded strings. -/
def globMatch : Nat → Bytes → Bytes → Bool
  | 0, _, _ => false
  | fuel + 1, p, s =>
    match p, s with
    | [], [] => true
    | [], _ :: _ => false
    | 42 :: pr, rest =>
      globMatch fuel pr rest ||
        (match rest with
         | [] => false
         | _ :: sr => globMatch fuel (42 :: pr) sr)
    | 63 :: pr, _ :: sr => globMatch fuel pr sr
    | 63 :: _, [] => false
    | 91 :: pr, c :: sr =>
      match globReadClass pr with
      | some (cls, pr') => cls.contains c && globMatch fuel pr' sr
      | none => false
    | 91 :: _, [] => false
    | x :: pr, c :: sr => (x == c) && globMatch fuel pr sr
    | _ :: _, [] => false

/-- handle_command (main.rs lines 544-626): dispatch one parsed command
against the store, returning ((reply, was_write, should_close), store).
Always called with a non-empty args vector (event_data only forwards
non-empty frames), so args.getD 0 models the args[0] indexing. -/
def handle_command (args : List Bytes) (keys : Store) : (Bytes × Bool × Bool) × Store :=
  if arg_match (args.getD 0 []) (strB "PING") then
    match args.length with
    | 1 => ((strB "+PONG\r\n", false, false), keys)
    | 2 => ((make_bulk (args.getD 1 []), false, false), keys)
    | _ => ((invalid_num_args (args.getD 0 []), false, false), keys)
  else if arg_match (args.getD 0 []) (strB "SET") then
    match args.length with
    | 3 => ((strB "+OK\r\n", true, false), storeInsert (args.getD 1 []) (args.getD 2 []) keys)
    | _ => ((invalid_num_args (args.getD 0 []), false, false), keys)
  else if arg_match (args.getD 0 []) (strB "FLUSHDB") then
    match args.length with
    | 1 => ((strB "+OK\r\n", true, false), [])
    | _ => ((invalid_num_args (args.getD 0 []), false, false), keys)
  else if arg_match (args.getD 0 []) (strB "DEL") then
    match args.length with
    | 2 =>
      (match storeRemove (args.getD 1 []) keys with
       | (some _, keys') => ((strB ":1\r\n", true, false), keys')
       | (none, keys') => ((strB ":0\r\n", false, false), keys'))
    | _ => ((invalid_num_args (args.getD 0 []), false, false), keys)
  else if arg_match (args.getD 0 []) (strB "GET") then
    match args.length with
    | 2 =>
      (match storeGet (args.getD 1 []) keys with
       | some v => ((make_bulk v, false, false), keys)
       | none => ((strB "$-1\r\n", false, false), keys))
    | _ => ((invalid_num_args (args.getD 0 []), false, false), keys)
  else if arg_match (args.getD 0 []) (strB "KEYS") then
    match args.length with
    | 2 =>
      (match globNew (utf8Lossy (args.getD 1 [])) with
       | some pat =>
         let res := (keys.filter
           (fun kv => globMatch (pat.length + (utf8Lossy kv.1).length + 1) pat (utf8Lossy kv.1))).map
             (fun kv => kv.1)
         ((make_array res.length ++ res.foldl (fun acc k => acc ++ make_bulk k) [], false, false),
           keys)
       | none => ((strB "$-1\r\n", false, false), keys))
    | _ => ((invalid_num_args (args.getD 0 []), false, false), keys)
  else if arg_match (args.getD 0 []) (strB "QUIT") then
    ((strB "+OK\r\n", false, true), keys)
  else
    ((strB "-ERR unknown command \x27" ++ safe_line_from_slice (args.getD 0 []) ++ strB "\x27\r\n",
       false, false), keys)

example : handle_command [strB "PING"] [] = ((strB "+PONG\r\n", false, false), []) := by decide
example : handle_command [strB "SET", strB "a", strB "1"] [] =
    ((strB "+OK\r\n", true, false), [(strB "a", strB "1")]) := by decide
example : handle_command [strB "GET", strB "a"] [(strB "a", strB "1")] =
    ((make_bulk (strB "1"), false, false), [(strB "a", strB "1")]) := by decide
example : handle_command [strB "quit"] [] = ((strB "+OK\r\n", false, true), []) := by decide
example : handle_command [strB "HELLO"] [] =
    ((strB "-ERR unknown command \x27HELLO\x27\r\n", false, false), []) := by decide

/-- Frame-collection loop of event_data (main.rs lines 469-482): run the
codec repeatedly from cursor 0, gathering non-empty frames; stop on an
error (returning it) or on an incomplete frame.  Fuel: each complete
frame advances the cursor by at least one byte (see the progress
examples above), so input.length + 1 iterations suffice; the fuel-0
branch mirrors the incomplete stop. -/
def edLoop (input : Bytes) : Nat → Nat → List (List Bytes) → Option (List (List Bytes) × Bytes × Nat)
  | 0, i, argss => some (argss, [], i)
  | fuel + 1, i, argss =>
    match redcon_take_args input i with
    | none => none
    | some r =>
      if r.err ≠ [] then some (argss, r.err, i)
      else if r.complete = false then some (argss, [], i)
      else edLoop input fuel r.ni (if r.args ≠ [] then argss ++ [r.args] else argss)

/-- Command-execution loop of event_data (main.rs lines 484-501): run the
batch under one store lock, stopping after a command that asks to close. -/
def execCmds : List (List Bytes) → Store → Bytes × Bool × Store
  | [], st => ([], false, st)
  | args :: rest, st =>
    match handle_command args st with
    | ((hout, _write, hclose), st') =>
      if hclose then (hout, true, st')
      else
        match execCmds rest st' with
        | (out', cl', st'') => (hout ++ out', cl', st'')

/-- Result of one event_data call: bytes appended to the output buffer,
the close flag, the remaining input buffer and the store after the
batch. -/
structure EventResult where
  output : Bytes
  close : Bool
  input : Bytes
  store : Store
deriving DecidableEq, Repr

/-- event_data (main.rs lines 464-513): parse all complete frames, then
execute them; on a codec error emit only the framed error and close.
none propagates the codec panic. -/
def event_data (input : Bytes) (st : Store) : Option EventResult :=
  match edLoop input (input.length + 1) 0 [] with
  | none => none
  | some (argss, err, i) =>
    if err ≠ [] then some ⟨strB "-" ++ err ++ strB "\r\n", true, input.drop i, st⟩
    else
      match execCmds argss st with
      | (out, close, st') => some ⟨out, close, input.drop i, st'⟩

example : event_data (strB "PING\r\n") [] =
    some ⟨strB "+PONG\r\n", false, [], []⟩ := by decide
example : event_data (strB "*1\r\n$4\r\nPING\r\n") [] =
    some ⟨strB "+PONG\r\n", false, [], []⟩ := by decide
example : event_data (strB "PING\r\nPIN") [] =
    some ⟨strB "+PONG\r\n", false, strB "PIN", []⟩ := by decide
example : event_data (strB "PING\r\n*1\r\n$x\r\n") [] =
    some ⟨strB "-ERR Protocol error: invalid bulk length\r\n", true, strB "*1\r\n$x\r\n", []⟩ := by
  decide
example : event_data (strB "QUIT\r\nPING\r\n") [] =
    some ⟨strB "+OK\r\n", true, [], []⟩ := by decide

/-- Result of one non-blocking write on the stream. -/
inductive WriteRes where
  | ok (n : Nat)
  | wouldBlock
  | errOther
deriving DecidableEq

/-- Drain-writes loop of handle_existing_connection (main.rs lines
182-192): while output is non-empty, write; Ok n drops the written
prefix (split_off), WouldBlock does nothing, any other error only sets
close; no arm leaves the loop.  oracle gives the result of the k-th
write attempt on the stream; a result of none means the loop is still
running (and has attempted fuel writes) after fuel iterations. -/
def drainWritesLoop (oracle : Nat → WriteRes) :
    Nat → Bytes → Bool → Nat → Option (Bytes × Bool × Nat)
  | 0, out, cl, k => if out = [] then some (out, cl, k) else none
  | fuel + 1, out, cl, k =>
    if out = [] then some (out, cl, k)
    else
      match oracle k with
      | .ok n => drainWritesLoop oracle fuel (out.drop n) cl (k + 1)
      | .wouldBlock => drainWritesLoop oracle fuel out cl (k + 1)
      | .errOther => drainWritesLoop oracle fuel out true (k + 1)

example : drainWritesLoop (fun _ => WriteRes.ok 2) 3 [65, 66, 67] false 0 =
    some ([], false, 2) := by decide

/-- Lossy decoding is the identity on ASCII byte lists. -/
theorem utf8Lossy_ascii : ∀ l : Bytes, (∀ b ∈ l, b < 128) → utf8Lossy l = l
  | [], _ => rfl
  | b :: r, h => by
    have hb : b < 128 := h b (List.mem_cons_self b r)
    have hr := utf8Lossy_ascii r (fun x hx => h x (List.mem_cons_of_mem b hx))
    rw [utf8Lossy.eq_def]
    simp [hb, hr]

/-- Lookup after insert of the same key. -/
theorem storeGet_insert : ∀ (k v : Bytes) (st : Store),
    storeGet k (storeInsert k v st) = some v
  | k, v, [] => by simp [storeInsert, storeGet]
  | k, v, (k', v') :: r => by
    by_cases h : k' = k
    · simp [storeInsert, storeGet, h]
    · simp [storeInsert, storeGet, h, storeGet_insert k v r]

/-- Hex digit byte used to build the quoted literal of a byte value. -/
def hexDigitB (d : Nat) : Nat := if d < 10 then 48 + d else 87 + d

/-- The inline-quoted literal of the byte x per the escape table of the
spec, as one CRLF-terminated inline frame: a double quote, a backslash-x
escape with two hex digits, the closing quote, CRLF. -/
def quoteLit (x : Nat) : Bytes :=
  [34, 92, 120, hexDigitB (x / 16), hexDigitB (x % 16), 34, 13, 10]

/-- One step of the quoted-arg loop at an ordinary byte: the always-true
match guard closes the quote immediately, keeping only the accumulator. -/
theorem pqLoop_closes (packet : Bytes) (fuel i : Nat) (arg : Bytes)
    (h1 : i < packet.length) (h2 : packet.getD i 0 ≠ 10) (h3 : packet.getD i 0 ≠ 92) :
    pqLoop packet (fuel + 1) i arg = some (arg, i + 1, true) := by
  simp only [pqLoop]
  rw [if_pos h1, if_neg h2, if_neg h3]

/-- Claim C2 (amended): the parsed argument of a quoted token is not the
bytes between the quotes: the close arm of parse_quoted_arg rebinds
packet[i] so its guard is always true, and any byte other than a
newline and a backslash closes the quote at once — in particular an
ordinary byte right after the opening quote closes it with the empty
argument.  The round-trip half of the claim does hold: for every byte
x, the CRLF-terminated literal quote backslash-x hex hex quote parses
back to the single one-byte argument [x], its content being produced
entirely by the escape. -/
theorem c2_quote_roundtrip :
    (∀ (packet : Bytes) (i : Nat),
        1 ≤ i → i < packet.length →
        packet.getD i 0 ≠ 10 → packet.getD i 0 ≠ 92 →
        parse_quoted_arg packet i = some ([], i + 1, true))
    ∧ (∀ x : Fin 256,
        redcon_take_inline_args (quoteLit x.val) 0 = some ⟨[[x.val]], [], 8, true⟩) := by
  refine ⟨?_, by decide⟩
  intro packet i h1 h2 h3 h4
  unfold parse_quoted_arg
  rw [if_pos ⟨h1, by omega⟩]
  exact pqLoop_closes packet packet.length i [] h2 h3 h4

/-- Witness for c2_quote_roundtrip at the buffer quote-a: the byte a
right after the opening quote closes the quoted token with the empty
argument. -/
theorem c2_quote_roundtrip_witness :
    (1 ≤ 1 ∧ 1 < (strB "\x22a").length
      ∧ (strB "\x22a").getD 1 0 ≠ 10 ∧ (strB "\x22a").getD 1 0 ≠ 92)
    ∧ parse_quoted_arg (strB "\x22a") 1 = some ([], 2, true) :=
  ⟨by decide,
    c2_quote_roundtrip.1 (strB "\x22a") 1 (by decide) (by decide) (by decide) (by decide)⟩

/-- Counterexample to claim C2 as stated: in the inline frame
quote a b quote space CRLF the parsed arguments are two empty byte
strings — the first quote closes at the byte a, and the second quote
(the intended closing one) opens a new quoted token that the space
closes — not the single argument ab made of the bytes between the
quotes. -/
theorem c2_quote_counterexample :
    redcon_take_inline_args (strB "\x22ab\x22 \r\n") 0 = some ⟨[[], []], [], 7, true⟩
    ∧ ([[], []] : List Bytes) ≠ [strB "ab"] := by decide

/-- Claim C4: the claim that the drain-writes loop stops on the first
WouldBlock fails on the code.  No match arm exits the while loop, so
under an oracle that answers WouldBlock on every attempt the loop never
finishes, for any iteration budget, retrying the write each time. -/
theorem c4_drain_never_stops : ∀ (fuel : Nat) (out : Bytes) (cl : Bool) (k : Nat), out ≠ [] →
    drainWritesLoop (fun _ => WriteRes.wouldBlock) fuel out cl k = none := by
  intro fuel
  induction fuel with
  | zero =>
    intro out cl k h
    show (if out = [] then some ((out, cl, k) : Bytes × Bool × Nat) else none) = none
    exact if_neg h
  | succ n ih =>
    intro out cl k h
    show (if out = [] then some ((out, cl, k) : Bytes × Bool × Nat)
      else drainWritesLoop (fun _ => WriteRes.wouldBlock) n out cl (k + 1)) = none
    rw [if_neg h]
    exact ih out cl (k + 1) h

/-- Witness for c4_drain_never_stops at a concrete non-empty output. -/
theorem c4_drain_never_stops_witness :
    ([65] : Bytes) ≠ []
    ∧ drainWritesLoop (fun _ => WriteRes.wouldBlock) 5 [65] false 0 = none :=
  ⟨by decide, c4_drain_never_stops 5 [65] false 0 (by decide)⟩

/-- Claim C5 (amended): QUIT performs no arity check; with any argument
count the dispatcher replies +OK, was_write = false, should_close =
true, and leaves the store unchanged. -/
theorem c5_quit_no_arity_check : ∀ (rest : List Bytes) (keys : Store),
    handle_command (strB "QUIT" :: rest) keys = ((strB "+OK\r\n", false, true), keys) := by
  intro rest keys; rfl

/-- Counterexample to claim C5 as stated: QUIT with two arguments
replies +OK with should_close = true, not the wrong-number-of-arguments
error with should_close = false. -/
theorem c5_quit_arity_counterexample :
    handle_command [strB "QUIT", strB "x"] [] = ((strB "+OK\r\n", false, true), [])
    ∧ handle_command [strB "QUIT", strB "x"] []
        ≠ ((invalid_num_args (strB "QUIT"), false, false), []) := by decide

/-- Claim C6 (amended): invalid_num_args does not replace control bytes;
for an ASCII command name the arity-error reply embeds the name
verbatim (the source formats String::from_utf8_lossy of cmd and never
calls safe_line_from_slice here). -/
theorem c6_ctrl_bytes_not_replaced :
    ∀ cmd : Bytes, (∀ b ∈ cmd, b < 128) →
      invalid_num_args cmd =
        strB "-ERR wrong number of arguments for \x27" ++ cmd ++ strB "\x27 command\r\n" := by
  intro cmd h
  unfold invalid_num_args
  rw [utf8Lossy_ascii cmd h]

/-- Witness for c6_ctrl_bytes_not_replaced at the command name
[0x01, E, T], whose first byte is a control byte. -/
theorem c6_ctrl_bytes_not_replaced_witness :
    (∀ b ∈ ([1, 69, 84] : Bytes), b < 128)
    ∧ invalid_num_args [1, 69, 84] =
        strB "-ERR wrong number of arguments for \x27" ++ [1, 69, 84]
          ++ strB "\x27 command\r\n" :=
  ⟨by decide, c6_ctrl_bytes_not_replaced [1, 69, 84] (by decide)⟩

/-- Counterexample to claim C6 as stated: the name [0x01, E, T] matches
SET (the control byte is a wildcard position), and the arity-error
reply for it keeps the raw 0x01 byte instead of replacing it with a
space. -/
theorem c6_ctrl_bytes_counterexample :
    (handle_command [[1, 69, 84], [97]] []).1.1 =
        strB "-ERR wrong number of arguments for \x27" ++ [1, 69, 84]
          ++ strB "\x27 command\r\n"
    ∧ (handle_command [[1, 69, 84], [97]] []).1.1 ≠
        strB "-ERR wrong number of arguments for \x27" ++ [32, 69, 84]
          ++ strB "\x27 command\r\n" := by decide

/-- Claim C7: SET k v replies +OK with was_write = true and stores v
under k, and a subsequent GET k replies the bulk encoding of v. -/
theorem c7_set_get : ∀ (k v : Bytes) (st : Store),
    handle_command [strB "SET", k, v] st = ((strB "+OK\r\n", true, false), storeInsert k v st)
    ∧ handle_command [strB "GET", k] (storeInsert k v st) =
        ((make_bulk v, false, false), storeInsert k v st) := by
  intro k v st
  refine ⟨rfl, ?_⟩
  have h : handle_command [strB "GET", k] (storeInsert k v st) =
      (match storeGet k (storeInsert k v st) with
       | some w => ((make_bulk w, false, false), storeInsert k v st)
       | none => ((strB "$-1\r\n", false, false), storeInsert k v st)) := rfl
  rw [h, storeGet_insert]

/-- Claim C9 (amended): the inline codec is indeed not total, but the
out-of-bounds index needs the final backslash to stand right where the
parser looks — directly after the opening quote or after an escape.  On
the two-byte buffer quote backslash, the escape scanner increments the
cursor past the final backslash and indexes the buffer at its length,
modelled by the none result, which propagates through the inline codec.
(The input cited by the claim, quote a backslash, never reaches its
backslash: the byte a closes the quote through the always-true match
guard; see the counterexample.) -/
theorem c9_backslash_oob :
    parse_quoted_arg (strB "\x22\\") 1 = none
    ∧ redcon_take_inline_args (strB "\x22\\") 0 = none := by decide

/-- Counterexample to claim C9 as stated: at the cited input
quote a backslash the parser closes the quote at the byte a and returns
balanced; the inline scanner then reports the frame incomplete, and no
out-of-bounds index occurs at that input. -/
theorem c9_backslash_counterexample :
    parse_quoted_arg (strB "\x22a\\") 1 = some ([], 2, true)
    ∧ redcon_take_inline_args (strB "\x22a\\") 0 = some ⟨[], [], 0, false⟩
    ∧ (some (([], 2, true) : Bytes × Nat × Bool)) ≠ none := by decide

/-- Counterexample to claim C1 as stated: the truncated multi-bulk frame
star-2-CRLF returns complete = false with an empty error, but the
returned cursor is 4, not the starting cursor 0. -/
theorem c1_cursor_counterexample :
    redcon_take_multibulk_args (strB "*2\r\n") 0 = ⟨[], [], 4, false⟩ ∧ (4 : Nat) ≠ 0 := by
  decide

/-- Counterexample to claim C3 as stated: the one-byte buffer holding
only an opening quote ends inside a quoted string with no bare newline
anywhere, yet the codec returns the unbalanced-quotes protocol error,
not an incomplete frame. -/
theorem c3_unterminated_counterexample :
    redcon_take_inline_args (strB "\x22") 0 = some ⟨[], unbalancedMsg, 0, false⟩
    ∧ unbalancedMsg ≠ [] := by decide

/-- A successful hex parse needs both digit positions in bounds. -/
theorem parse_hex_byte_bound (packet : Bytes) (j v : Nat)
    (h : parse_hex_byte packet j = some v) : j + 1 < packet.length := by
  by_contra hc
  unfold parse_hex_byte at h
  rw [if_neg hc] at h
  exact Option.noConfusion h

/-- The quoted-arg loop reports unbalanced only at the end of the buffer
or at a bare newline, and then with an empty argument (any other byte
hits the always-true close arm).  The two inequalities are the loop
invariants: the fuel covers the remaining buffer and the cursor never
passes the length. -/
theorem pqLoop_unbalanced (packet : Bytes) :
    ∀ (fuel i : Nat) (arg a : Bytes) (j : Nat),
      packet.length + 1 ≤ fuel + i → i ≤ packet.length →
      pqLoop packet fuel i arg = some (a, j, false) →
      a = [] ∧ (j = packet.length ∨ packet.getD j 0 = 10) := by
  intro fuel
  induction fuel with
  | zero =>
    intro i arg a j hf hi _
    exfalso; omega
  | succ fuel ih =>
    intro i arg a j hf hi h
    simp only [pqLoop] at h
    by_cases h1 : i < packet.length
    · rw [if_pos h1] at h
      by_cases h2 : packet.getD i 0 = 10
      · rw [if_pos h2] at h
        simp only [Option.some.injEq, Prod.mk.injEq] at h
        obtain ⟨ha, hj, -⟩ := h
        exact ⟨ha.symm, Or.inr (hj ▸ h2)⟩
      · rw [if_neg h2] at h
        by_cases h3 : packet.getD i 0 = 92
        · rw [if_pos h3] at h
          by_cases h4 : i + 1 < packet.length
          · rw [if_pos h4] at h
            split_ifs at h
            all_goals
              first
              | exact ih (i + 2) _ a j (by omega) (by omega) h
              | (split at h
                 next v heq =>
                   have hb := parse_hex_byte_bound packet (i + 2) v heq
                   exact ih (i + 4) _ a j (by omega) (by omega) h
                 next heq => exact ih (i + 2) _ a j (by omega) (by omega) h)
          · rw [if_neg h4] at h
            exact Option.noConfusion h
        · rw [if_neg h3] at h
          simp only [Option.some.injEq, Prod.mk.injEq] at h
          exact Bool.noConfusion h.2.2
    · rw [if_neg h1] at h
      simp only [Option.some.injEq, Prod.mk.injEq] at h
      obtain ⟨ha, hj, -⟩ := h
      exact ⟨ha.symm, Or.inl (by omega)⟩

/-- If the inline scanner stops with no error and no complete frame, the
returned cursor is the starting cursor ni. -/
theorem ilLoop_incomplete_ni (packet : Bytes) (ni : Nat) :
    ∀ (fuel s i : Nat) (args : List Bytes) (r : TakeResult),
      ilLoop packet ni fuel s i args = some r → r.err = [] → r.complete = false →
      r.ni = ni := by
  intro fuel
  induction fuel with
  | zero =>
    intro s i args r h _ _
    simp only [ilLoop, Option.some.injEq] at h
    rw [← h]
  | succ fuel ih =>
    intro s i args r h he hc
    simp only [ilLoop] at h
    by_cases h1 : i < packet.length
    · rw [if_pos h1] at h
      by_cases h2 : packet.getD i 0 = 32 ∨ packet.getD i 0 = 10
      · rw [if_pos h2] at h
        by_cases h3 : packet.getD i 0 = 10
        · rw [if_pos h3] at h
          simp only [Option.some.injEq] at h
          rw [← h] at hc
          exact Bool.noConfusion hc
        · rw [if_neg h3] at h
          exact ih _ _ _ r h he hc
      · rw [if_neg h2] at h
        by_cases h4 : packet.getD i 0 = 34 ∨ packet.getD i 0 = 39
        · rw [if_pos h4] at h
          split at h
          next => exact Option.noConfusion h
          next arg newI balanced heq =>
            by_cases h5 : balanced
            · rw [if_pos h5] at h
              exact ih _ _ _ r h he hc
            · rw [if_neg h5] at h
              simp only [Option.some.injEq] at h
              rw [← h] at he
              have hu : unbalancedMsg = [] := he
              exact absurd hu (by decide)
        · rw [if_neg h4] at h
          exact ih _ _ _ r h he hc
    · rw [if_neg h1] at h
      simp only [Option.some.injEq] at h
      rw [← h]

/-- The only error the inline scanner can return is the unbalanced-quotes
message, with empty args, unchanged cursor and complete = false. -/
theorem ilLoop_err_unbalanced (packet : Bytes) (ni : Nat) :
    ∀ (fuel s i : Nat) (args : List Bytes) (r : TakeResult),
      ilLoop packet ni fuel s i args = some r → r.err ≠ [] →
      r = ⟨[], unbalancedMsg, ni, false⟩ := by
  intro fuel
  induction fuel with
  | zero =>
    intro s i args r h he
    simp only [ilLoop, Option.some.injEq] at h
    rw [← h] at he
    exact absurd rfl he
  | succ fuel ih =>
    intro s i args r h he
    simp only [ilLoop] at h
    by_cases h1 : i < packet.length
    · rw [if_pos h1] at h
      by_cases h2 : packet.getD i 0 = 32 ∨ packet.getD i 0 = 10
      · rw [if_pos h2] at h
        by_cases h3 : packet.getD i 0 = 10
        · rw [if_pos h3] at h
          simp only [Option.some.injEq] at h
          rw [← h] at he
          exact absurd rfl he
        · rw [if_neg h3] at h
          exact ih _ _ _ r h he
      · rw [if_neg h2] at h
        by_cases h4 : packet.getD i 0 = 34 ∨ packet.getD i 0 = 39
        · rw [if_pos h4] at h
          split at h
          next => exact Option.noConfusion h
          next arg newI balanced heq =>
            by_cases h5 : balanced
            · rw [if_pos h5] at h
              exact ih _ _ _ r h he
            · rw [if_neg h5] at h
              exact (Option.some.inj h).symm
        · rw [if_neg h4] at h
          exact ih _ _ _ r h he
    · rw [if_neg h1] at h
      simp only [Option.some.injEq] at h
      rw [← h] at he
      exact absurd rfl he

/-- Claim C3 (amended): most buffers ending inside a quoted string are
reported incomplete, because any byte other than a newline and a
backslash closes the quote at once (the concrete quote-a conjunct), but
not every one: the quoted-arg parser reports unbalanced exactly at end
of buffer and at a bare newline, so a buffer ending right at the opening
quote (or with an escape consuming up to the end) yields the
unbalanced-quotes protocol error, which is therefore not produced only
by a bare newline.  The inline codec turns every unbalanced result into
that error with empty args, an unchanged cursor and complete = false. -/
theorem c3_unterminated_quote :
    (∀ (packet : Bytes) (i : Nat) (a : Bytes) (j : Nat),
        parse_quoted_arg packet i = some (a, j, false) →
        a = [] ∧ (j = packet.length ∨ packet.getD j 0 = 10))
    ∧ (∀ (packet : Bytes) (ni : Nat) (r : TakeResult),
        redcon_take_inline_args packet ni = some r → r.err ≠ [] →
        r = ⟨[], unbalancedMsg, ni, false⟩)
    ∧ redcon_take_inline_args (strB "\x22a") 0 = some ⟨[], [], 0, false⟩
    ∧ redcon_take_inline_args (strB "\x22") 0 = some ⟨[], unbalancedMsg, 0, false⟩ := by
  refine ⟨?_, ?_, by decide, by decide⟩
  · intro packet i a j h
    unfold parse_quoted_arg at h
    by_cases hg : 1 ≤ i ∧ i - 1 < packet.length
    · rw [if_pos hg] at h
      exact pqLoop_unbalanced packet (packet.length + 1) i [] a j (by omega) (by omega) h
    · rw [if_neg hg] at h
      exact Option.noConfusion h
  · intro packet ni r h he
    exact ilLoop_err_unbalanced packet ni _ _ _ _ r h he

/-- Witness for c3_unterminated_quote at the one-byte buffer holding
only the opening quote, where the parser hits the end of the buffer. -/
theorem c3_unterminated_quote_witness :
    parse_quoted_arg (strB "\x22") 1 = some ([], 1, false)
    ∧ (([] : Bytes) = []
        ∧ (1 = (strB "\x22").length ∨ (strB "\x22").getD 1 0 = 10)) :=
  ⟨by decide, c3_unterminated_quote.1 (strB "\x22") 1 [] 1 (by decide)⟩

/-- Claim C1 (amended): if the inline codec returns no complete frame and
no error, the returned cursor equals ni.  The multibulk codec does not
keep the cursor on an incomplete frame (a truncated two-bulk frame
returns cursor 13 from ni = 0 and even leaks the parsed first bulk), and
a truncated bulk payload with a further bulk announced yields a protocol
error instead of incomplete.  The worker still retries after the next
read whenever the codec reports incomplete with no error, because
event_data advances its own cursor only past complete frames: with an
incomplete first frame it returns no output, no close, and leaves input
and store unchanged. -/
theorem c1_incomplete_cursor :
    (∀ (packet : Bytes) (ni : Nat) (r : TakeResult),
        redcon_take_inline_args packet ni = some r → r.err = [] → r.complete = false →
        r.ni = ni)
    ∧ redcon_take_multibulk_args (strB "*2\r\n$3\r\nfoo\r\n") 0 = ⟨[strB "foo"], [], 13, false⟩
    ∧ (redcon_take_multibulk_args (strB "*2\r\n$1\r\na") 0).err ≠ []
    ∧ (∀ (input : Bytes) (st : Store) (r : TakeResult),
        redcon_take_args input 0 = some r → r.complete = false → r.err = [] →
        event_data input st = some ⟨[], false, input, st⟩) := by
  refine ⟨?_, by decide, by decide, ?_⟩
  · intro packet ni r h he hc
    exact ilLoop_incomplete_ni packet ni _ _ _ _ r h he hc
  · intro input st r h hc he
    have hstep : edLoop input (input.length + 1) 0 [] = some ([], [], 0) := by
      show (match redcon_take_args input 0 with
        | none => none
        | some r' =>
          if r'.err ≠ [] then some ([], r'.err, 0)
          else if r'.complete = false then some ([], [], 0)
          else edLoop input input.length r'.ni (if r'.args ≠ [] then [] ++ [r'.args] else [])) =
        some ([], [], 0)
      rw [h]
      simp [he, hc]
    unfold event_data
    rw [hstep]
    simp [execCmds]

/-- Witness for c1_incomplete_cursor at the incomplete inline buffer GE. -/
theorem c1_incomplete_cursor_witness :
    redcon_take_inline_args (strB "GE") 0 = some ⟨[], [], 0, false⟩
    ∧ (⟨[], [], 0, false⟩ : TakeResult).ni = 0
    ∧ event_data (strB "GE") [] = some ⟨[], false, strB "GE", []⟩ := by
  refine ⟨by decide, ?_, ?_⟩
  · exact c1_incomplete_cursor.1 (strB "GE") 0 ⟨[], [], 0, false⟩ (by decide) rfl rfl
  · exact c1_incomplete_cursor.2.2.2 (strB "GE") [] ⟨[], [], 0, false⟩ (by decide) rfl rfl

/-- The comparison loop accepts when every differing position of the
first argument holds a non-alphabetic byte. -/
theorem amLoop_of_wildcards : ∀ (a w : Bytes), a.length = w.length →
    (∀ i, i < a.length → a.getD i 0 ≠ w.getD i 0 →
      ¬(97 ≤ a.getD i 0 ∧ a.getD i 0 ≤ 122) ∧ ¬(65 ≤ a.getD i 0 ∧ a.getD i 0 ≤ 90)) →
    amLoop a w = true
  | [], [], _, _ => rfl
  | [], _ :: _, h, _ => by simp at h
  | _ :: _, [], h, _ => by simp at h
  | a :: ar, w :: wr, h, hw => by
    have hlen : ar.length = wr.length := by simpa using h
    have htail := amLoop_of_wildcards ar wr hlen
      (fun i hi hne =>
        hw (i + 1) (by simpa using Nat.succ_lt_succ hi) (by simpa using hne))
    show ((if a = w then true
      else if 97 ≤ a ∧ a ≤ 122 then a == (w + 32) % 256
      else if 65 ≤ a ∧ a ≤ 90 then a == (w + 224) % 256
      else true) && amLoop ar wr) = true
    by_cases haw : a = w
    · simp [haw, htail]
    · have h0 := hw 0 (by simp) (by simpa using haw)
      simp only [List.getD_cons_zero] at h0
      simp [haw, h0.1, h0.2, htail]

/-- Claim C8: arg_match treats non-alphabetic bytes as wildcards; two
equal-length byte strings match whenever every position where they
differ holds a byte of the candidate that is neither an ASCII lowercase
nor an ASCII uppercase letter. -/
theorem c8_wildcard_match : ∀ (a w : Bytes), a.length = w.length →
    (∀ i, i < a.length → a.getD i 0 ≠ w.getD i 0 →
      ¬(97 ≤ a.getD i 0 ∧ a.getD i 0 ≤ 122) ∧ ¬(65 ≤ a.getD i 0 ∧ a.getD i 0 ≤ 90)) →
    arg_match a w = true := by
  intro a w hlen hw
  unfold arg_match
  rw [if_neg (by simp [hlen])]
  exact amLoop_of_wildcards a w hlen hw

/-- Witness for c8_wildcard_match: 0ING matches PING (0 is not a letter);
with it, 0ING dispatches as PING and @ET dispatches as SET. -/
theorem c8_wildcard_match_witness :
    ((strB "0ING").length = (strB "PING").length
      ∧ arg_match (strB "0ING") (strB "PING") = true)
    ∧ arg_match (strB "@ET") (strB "SET") = true
    ∧ (handle_command [strB "0ING"] []).1.1 = strB "+PONG\r\n"
    ∧ (handle_command [strB "@ET", strB "k", strB "v"] []).1.1 = strB "+OK\r\n" :=
  ⟨⟨by decide, c8_wildcard_match (strB "0ING") (strB "PING") (by decide) (by decide)⟩,
    by decide, by decide, by decide⟩

/-- Claim C10: when the codec reports a protocol error anywhere in one
event_data call, the commands already parsed in that call are neither
executed nor replied to: the output is exactly the framed error line,
the close flag is true, and the store is unchanged. -/
theorem c10_error_discards_batch :
    ∀ (input : Bytes) (st : Store) (argss : List (List Bytes)) (err : Bytes) (i : Nat),
      edLoop input (input.length + 1) 0 [] = some (argss, err, i) → err ≠ [] →
      event_data input st = some ⟨strB "-" ++ err ++ strB "\r\n", true, input.drop i, st⟩ := by
  intro input st argss err i h he
  unfold event_data
  rw [h]
  simp [he]

/-- Witness for c10_error_discards_batch: a complete PING frame followed
by a malformed multi-bulk frame; the PING is parsed but not executed. -/
theorem c10_error_discards_batch_witness :
    edLoop (strB "PING\r\n*1\r\n$x\r\n") ((strB "PING\r\n*1\r\n$x\r\n").length + 1) 0 []
      = some ([[strB "PING"]], strB "ERR Protocol error: invalid bulk length", 6)
    ∧ strB "ERR Protocol error: invalid bulk length" ≠ []
    ∧ event_data (strB "PING\r\n*1\r\n$x\r\n") [(strB "a", strB "1")] =
        some ⟨strB "-ERR Protocol error: invalid bulk length\r\n", true,
          strB "*1\r\n$x\r\n", [(strB "a", strB "1")]⟩ := by
  refine ⟨by decide, by decide, ?_⟩
  have h := c10_error_discards_batch (strB "PING\r\n*1\r\n$x\r\n") [(strB "a", strB "1")]
    [[strB "PING"]] (strB "ERR Protocol error: invalid bulk length") 6 (by decide) (by decide)
  rw [h]
  decide

end CacheServer
